import Mathlib

/-!
Verification of the go-uploader chunked-upload session store and orchestrator.

The Go source is shallowly embedded: `time.Time` and `time.Duration` become
`Int` (nanoseconds; the zero value is `0`, `After` is `>`, `Before` is `<`),
Go maps become association lists (`AList`), a `nil` map is `Option.none`,
and fallible operations return `Except`.  Methods that mutate the receiver
return the updated store alongside their result.
-/

namespace GoUploader

/-- Association list standing for a Go map. -/
abbrev AList (κ ν : Type) := List (κ × ν)

/-- Lookup in a Go map (`m[k]`). -/
def alistLookup {κ ν : Type} [DecidableEq κ] (m : AList κ ν) (k : κ) : Option ν :=
  match m with
  | [] => none
  | (k', v) :: rest => if k' = k then some v else alistLookup rest k

/-- Assignment into a Go map (`m[k] = v`): replaces the binding if the key is
present, otherwise appends a new one. -/
def alistInsert {κ ν : Type} [DecidableEq κ] (m : AList κ ν) (k : κ) (v : ν) : AList κ ν :=
  match m with
  | [] => [(k, v)]
  | (k', v') :: rest => if k' = k then (k, v) :: rest else (k', v') :: alistInsert rest k v

/-- Deletion from a Go map (`delete(m, k)`). -/
def alistErase {κ ν : Type} [DecidableEq κ] (m : AList κ ν) (k : κ) : AList κ ν :=
  m.filter (fun p => decide (p.1 ≠ k))

/-- Keys of a Go map. -/
def alistKeys {κ ν : Type} (m : AList κ ν) : List κ :=
  m.map Prod.fst

/-- Length of a possibly-nil Go map (`len` of a nil map is `0`). -/
def goMapLen {κ ν : Type} (m : Option (AList κ ν)) : Nat :=
  (m.getD []).length

/-- ChunkSessionState is a Go string; these mirror the three declared constants. -/
abbrev ChunkSessionState := String

/-- Constant ChunkSessionStateActive. -/
def ChunkSessionStateActive : ChunkSessionState := "active"

/-- Constant ChunkSessionStateCompleted. -/
def ChunkSessionStateCompleted : ChunkSessionState := "completed"

/-- Constant ChunkSessionStateAborted. -/
def ChunkSessionStateAborted : ChunkSessionState := "aborted"

/-- ChunkPart captures metadata for an uploaded chunk (struct ChunkPart). -/
structure ChunkPart where
  index : Int
  size : Int
  checksum : String
  eTag : String
  uploadedAt : Int
deriving DecidableEq, Repr

/-- Metadata forwarded to the backend (struct Metadata). -/
structure Metadata where
  contentType : String
  cacheControl : String
  public : Bool
  ttl : Int
deriving DecidableEq, Repr

/-- ChunkSession tracks multipart upload progress (struct ChunkSession).
Go maps may be nil, hence the `Option`; provider-data values are opaque to the
store and modelled as strings. -/
structure ChunkSession where
  id : String
  key : String
  totalSize : Int
  partSize : Int
  metadata : Option Metadata
  createdAt : Int
  expiresAt : Int
  state : ChunkSessionState
  uploadedParts : Option (AList Int ChunkPart)
  providerData : Option (AList String String)
deriving DecidableEq, Repr

/-- Errors surfaced by the store and manager (errors.go and the inline
validation errors).  Distinct Go error values map to distinct constructors. -/
inductive UploaderErr where
  | validation (msg field : String)
  | sessionExists
  | sessionNotFound
  | sessionClosed
  | partOutOfRange
  | partDuplicate
  | providerNotConfigured
  | notImplemented
  | backend (msg : String)
deriving DecidableEq, Repr

/-- ChunkSessionStore: ttl plus the sessions registry.  `now` is the value the
injectable clock `timeNowFn` returns during the call being modelled. -/
structure ChunkSessionStore where
  ttl : Int
  sessions : AList String ChunkSession
  now : Int
deriving DecidableEq, Repr

deriving instance DecidableEq for Except

/-- Result of ChunkSessionStore.Create: the caller's session argument after the
in-place defaulting Create performs on it, the returned value or error, and the
store afterwards. -/
structure CreateResult where
  arg : ChunkSession
  result : Except UploaderErr ChunkSession
  store : ChunkSessionStore
deriving DecidableEq, Repr

/-- Defaulting block of ChunkSessionStore.Create: fills createdAt, expiresAt,
the two maps and the state of the caller's session in place, in the order the
Go body performs it. -/
def createDefaults (s : ChunkSessionStore) (session : ChunkSession) : ChunkSession :=
  let now := s.now
  let session := if session.createdAt = 0 then { session with createdAt := now } else session
  let session :=
    if session.expiresAt = 0 then { session with expiresAt := session.createdAt + s.ttl }
    else session
  let session :=
    if session.uploadedParts = none then { session with uploadedParts := some [] } else session
  let session :=
    if session.providerData = none then { session with providerData := some [] } else session
  if session.state = "" then { session with state := ChunkSessionStateActive } else session

/-- ChunkSessionStore.Create.  Follows the Go body exactly: validate id and
key, default the caller's argument in place, then reject on any existing entry
with the same id, and otherwise store and return a clone (value-identical in
this functional model). -/
def ChunkSessionStore.create (s : ChunkSessionStore) (session : ChunkSession) : CreateResult :=
  if session.id = "" then
    { arg := session, result := .error (.validation "chunk session definition invalid" "id"),
      store := s }
  else if session.key = "" then
    { arg := session, result := .error (.validation "chunk session definition invalid" "key"),
      store := s }
  else
    let session := createDefaults s session
    match alistLookup s.sessions session.id with
    | some _ => { arg := session, result := .error .sessionExists, store := s }
    | none =>
        { arg := session, result := .ok session,
          store := { s with sessions := alistInsert s.sessions session.id session } }

/-- ChunkSessionStore.Get: returns a clone if present and not strictly past
expiresAt; never mutates the registry (it holds only a read lock). -/
def ChunkSessionStore.get (s : ChunkSessionStore) (id : String) :
    Option ChunkSession × ChunkSessionStore :=
  match alistLookup s.sessions id with
  | none => (none, s)
  | some session =>
      if s.now > session.expiresAt then (none, s) else (some session, s)

/-- ChunkSessionStore.Delete: unconditional removal. -/
def ChunkSessionStore.delete (s : ChunkSessionStore) (id : String) : ChunkSessionStore :=
  { s with sessions := alistErase s.sessions id }

/-- ChunkSessionStore.AddPart.  Check order as in Go: negative index, missing
session, expiry (with lazy purge), non-active state, duplicate index; then
default uploadedAt and record the part. -/
def ChunkSessionStore.addPart (s : ChunkSessionStore) (id : String) (part : ChunkPart) :
    Except UploaderErr ChunkSession × ChunkSessionStore :=
  if part.index < 0 then (.error .partOutOfRange, s)
  else
    match alistLookup s.sessions id with
    | none => (.error .sessionNotFound, s)
    | some session =>
        if s.now > session.expiresAt then
          (.error .sessionNotFound, { s with sessions := alistErase s.sessions id })
        else if session.state ≠ ChunkSessionStateActive then (.error .sessionClosed, s)
        else
          match alistLookup (session.uploadedParts.getD []) part.index with
          | some _ => (.error .partDuplicate, s)
          | none =>
              let part := if part.uploadedAt = 0 then { part with uploadedAt := s.now } else part
              let updated :=
                { session with
                  uploadedParts :=
                    some (alistInsert (session.uploadedParts.getD []) part.index part) }
              (.ok updated, { s with sessions := alistInsert s.sessions id updated })

/-- ChunkSessionStore.updateState: shared body of MarkCompleted and
MarkAborted.  Note it performs no expiry check. -/
def ChunkSessionStore.updateState (s : ChunkSessionStore) (id : String)
    (newState : ChunkSessionState) : Except UploaderErr ChunkSession × ChunkSessionStore :=
  match alistLookup s.sessions id with
  | none => (.error .sessionNotFound, s)
  | some session =>
      if session.state ≠ ChunkSessionStateActive then (.error .sessionClosed, s)
      else
        let updated := { session with state := newState }
        (.ok updated, { s with sessions := alistInsert s.sessions id updated })

/-- ChunkSessionStore.MarkCompleted. -/
def ChunkSessionStore.markCompleted (s : ChunkSessionStore) (id : String) :
    Except UploaderErr ChunkSession × ChunkSessionStore :=
  s.updateState id ChunkSessionStateCompleted

/-- ChunkSessionStore.MarkAborted. -/
def ChunkSessionStore.markAborted (s : ChunkSessionStore) (id : String) :
    Except UploaderErr ChunkSession × ChunkSessionStore :=
  s.updateState id ChunkSessionStateAborted

/-- ChunkSessionStore.CleanupExpired: removes each session whose expiresAt is
not after `now` and returns the removed ids. -/
def ChunkSessionStore.cleanupExpired (s : ChunkSessionStore) (now : Int) :
    List String × ChunkSessionStore :=
  let keep := fun (p : String × ChunkSession) => decide (now < p.2.expiresAt)
  ((s.sessions.filter (fun p => ! keep p)).map Prod.fst,
    { s with sessions := s.sessions.filter keep })

/-- The slice of Manager state the chunked-upload path reads (uploader.go):
the chunk store plus the outcome of the provider checks.  `providerOk` is
whether ensureProvider succeeds, `providerChunked` whether the provider
satisfies the ChunkedUploader capability. -/
structure ManagerModel where
  providerOk : Bool
  providerChunked : Bool
  store : ChunkSessionStore
deriving DecidableEq, Repr

/-- Manager.getChunkSession: empty id or a store miss is SessionNotFound. -/
def ManagerModel.getChunkSession (m : ManagerModel) (id : String) :
    Except UploaderErr ChunkSession :=
  if id = "" then .error .sessionNotFound
  else
    match (m.store.get id).1 with
    | none => .error .sessionNotFound
    | some session => .ok session

/-- Manager.UploadChunk (uploader.go lines 242-281).  The backend call
`chunkProvider.UploadChunk(ctx, session, index, payload)` is abstracted as the
function argument `backend`; `payloadNil` models a nil payload reader.  The
check order and the store interactions follow the Go body: validate, resolve
the session, call the backend, force the part index, then AddPart. -/
def ManagerModel.uploadChunk (m : ManagerModel)
    (backend : ChunkSession → Int → Except String ChunkPart)
    (sessionID : String) (index : Int) (payloadNil : Bool) :
    Except UploaderErr Unit × ManagerModel :=
  if index < 0 then (.error .partOutOfRange, m)
  else if payloadNil then (.error (.validation "chunk upload failed" "payload"), m)
  else if ¬ m.providerOk then (.error .providerNotConfigured, m)
  else if ¬ m.providerChunked then (.error .notImplemented, m)
  else
    match m.getChunkSession sessionID with
    | .error e => (.error e, m)
    | .ok session =>
        match backend session index with
        | .error e => (.error (.backend e), m)
        | .ok part =>
            let part := if part.index ≠ index then { part with index := index } else part
            match m.store.addPart sessionID part with
            | (.error e, st) => (.error e, { m with store := st })
            | (.ok _, st) => (.ok (), { m with store := st })

/-- Payload bytes of one chunk. -/
abbrev Bytes := List Nat

/-- The chunk staging directory of one FS session: one file per part index
(provider_fs.go writes `.chunks/<sessionID>/<index>.part`). -/
abbrev ChunkDir := AList Int Bytes

/-- FSProvider.UploadChunk for one session (provider_fs.go lines 309-348):
rejects a negative index, rejects an index whose chunk file already exists,
otherwise writes the payload to a fresh chunk file and reports the part. -/
def fsUploadChunk (now : Int) (dir : ChunkDir) (index : Int) (payload : Bytes) :
    Except UploaderErr (ChunkPart × ChunkDir) :=
  if index < 0 then .error .partOutOfRange
  else
    match alistLookup dir index with
    | some _ => .error .partDuplicate
    | none =>
        .ok ({ index := index, size := (payload.length : Int), checksum := "", eTag := "",
               uploadedAt := now },
             alistInsert dir index payload)

/-- Ascending sort of part indices (sort.Ints). -/
def sortInts (l : List Int) : List Int :=
  l.insertionSort (· ≤ ·)

/-- Reads the chunk files named by `indexes` in order and appends their bytes
(the appendChunk loop); a missing chunk file is an open error. -/
def appendChunks (dir : ChunkDir) (indexes : List Int) (acc : Bytes) :
    Except UploaderErr Bytes :=
  match indexes with
  | [] => .ok acc
  | idx :: rest =>
      match alistLookup dir idx with
      | none => .error (.backend "fs provider: open chunk")
      | some bytes => appendChunks dir rest (acc ++ bytes)

/-- FSProvider.CompleteChunked (provider_fs.go lines 350-393), restricted to
the bytes it writes to the destination file: fails when no parts are recorded,
otherwise concatenates the session's chunk files in ascending index order. -/
def fsCompleteChunked (dir : ChunkDir) (session : ChunkSession) : Except UploaderErr Bytes :=
  if goMapLen session.uploadedParts = 0 then
    .error (.backend "fs provider: no parts uploaded")
  else
    appendChunks dir (sortInts (alistKeys (session.uploadedParts.getD []))) []

/-- A ChunkSession as laid out in Go memory: the two map fields hold
references into a heap of map objects, because assigning a Go map copies the
reference, not the contents.  All other fields have value semantics (the
Metadata pointer is deep-copied by cloneChunkSession, so it is kept by value). -/
structure RefChunkSession where
  id : String
  key : String
  totalSize : Int
  partSize : Int
  metadata : Option Metadata
  createdAt : Int
  expiresAt : Int
  state : ChunkSessionState
  uploadedPartsRef : Nat
  providerDataRef : Nat
deriving DecidableEq, Repr

/-- Heap of map objects: contents of each UploadedParts map and each
ProviderData map by reference, plus the next fresh reference (every allocated
reference is below `next`). -/
structure MapHeap where
  parts : Nat → AList Int ChunkPart
  data : Nat → AList String String
  next : Nat

/-- Heap allocation of a parts map (make(map[int]ChunkPart) with contents). -/
def MapHeap.allocParts (h : MapHeap) (contents : AList Int ChunkPart) : Nat × MapHeap :=
  (h.next,
   { h with parts := fun r => if r = h.next then contents else h.parts r, next := h.next + 1 })

/-- Heap allocation of a provider-data map. -/
def MapHeap.allocData (h : MapHeap) (contents : AList String String) : Nat × MapHeap :=
  (h.next,
   { h with data := fun r => if r = h.next then contents else h.data r, next := h.next + 1 })

/-- Assignment through a parts-map reference (`m[k] = v` on a shared map):
every alias of the same reference observes the update. -/
def MapHeap.writePart (h : MapHeap) (r : Nat) (k : Int) (v : ChunkPart) : MapHeap :=
  { h with parts := fun q => if q = r then alistInsert (h.parts r) k v else h.parts q }

/-- cloneChunkSession (uploader_callback_test.go lines 466-491) at the memory
level.  `out := *in` copies the struct, so `out` starts out sharing both map
references with `in`; a fresh map is allocated for a field only when the
source map is non-empty (the `len > 0` guards). -/
def cloneChunkSession (h : MapHeap) (s : RefChunkSession) : RefChunkSession × MapHeap :=
  let step1 :=
    if 0 < (h.parts s.uploadedPartsRef).length then
      let alloc := h.allocParts (h.parts s.uploadedPartsRef)
      ({ s with uploadedPartsRef := alloc.1 }, alloc.2)
    else (s, h)
  let s1 := step1.1
  let h1 := step1.2
  if 0 < (h1.data s1.providerDataRef).length then
    let alloc := h1.allocData (h1.data s1.providerDataRef)
    ({ s1 with providerDataRef := alloc.1 }, alloc.2)
  else (s1, h1)

/-- In-memory registry of the reference-level store (the sessions map), with
the clock reading of the current call. -/
structure RefStore where
  sessions : AList String RefChunkSession
  now : Int

/-- ChunkSessionStore.Get at the memory level: lookup, expiry check, then
cloneChunkSession of the internal record. -/
def RefStore.get (st : RefStore) (h : MapHeap) (id : String) :
    Option RefChunkSession × MapHeap :=
  match alistLookup st.sessions id with
  | none => (none, h)
  | some session =>
      if st.now > session.expiresAt then (none, h)
      else
        let cloned := cloneChunkSession h session
        (some cloned.1, cloned.2)

/-- Callback modes (defaults.go). -/
inductive GoCallbackMode where
  | strict
  | bestEffort
deriving DecidableEq, Repr

/-- Callback executors (callback_executor.go): the synchronous executor runs
the callback inline and returns its error; the asynchronous executor detaches
it and always returns nil to the caller. -/
inductive GoCallbackExecutor where
  | sync
  | async
deriving DecidableEq, Repr

/-- CallbackExecutor.Execute: sync propagates the callback result, async only
logs it. -/
def executeCallback (exec : GoCallbackExecutor) (cb : Except String Unit) :
    Except String Unit :=
  match exec with
  | .sync => cb
  | .async => .ok ()

/-- Provider object state as observed through Uploader.UploadFile and
Uploader.DeleteFile (mirrors the memoryProvider the tests use: stored objects
by key plus the log of deleted keys). -/
structure ProviderState where
  files : AList String Bytes
  deleted : List String
deriving DecidableEq, Repr

/-- Uploader.UploadFile on the provider model. -/
def providerUpload (p : ProviderState) (key : String) (content : Bytes) : ProviderState :=
  { p with files := alistInsert p.files key content }

/-- Uploader.DeleteFile on the provider model. -/
def providerDelete (p : ProviderState) (key : String) : ProviderState :=
  { files := alistErase p.files key, deleted := p.deleted ++ [key] }

/-- Modelled from the spec: the post-upload callback dispatch wired into
HandleFile is not in src/ (only its executor, the CallbackMode constants and
its tests are).  Per the spec, after the storage write succeeds the registered
callback runs through the configured executor; in strict mode a callback error
is propagated to the caller and the just-uploaded object is deleted as
compensation, while in best-effort mode the error is only logged and the
upload is still reported successful.  The storage-write phase is the
HandleFile upload step from uploader.go. -/
def handleFileWithCallback (p : ProviderState) (key : String) (content : Bytes)
    (mode : GoCallbackMode) (exec : GoCallbackExecutor) (callback : Except String Unit) :
    Except String Unit × ProviderState :=
  let uploaded := providerUpload p key content
  match executeCallback exec callback with
  | .ok _ => (.ok (), uploaded)
  | .error e =>
      match mode with
      | .bestEffort => (.ok (), uploaded)
      | .strict => (.error e, providerDelete uploaded key)

/-- Applying a list of chunk uploads in arrival order (the repeated
FSProvider.UploadChunk calls of one session). -/
def uploadAll (now : Int) (dir : ChunkDir) (uploads : List (Int × Bytes)) :
    Except UploaderErr ChunkDir :=
  match uploads with
  | [] => .ok dir
  | (idx, payload) :: rest =>
      match fsUploadChunk now dir idx payload with
      | .error e => .error e
      | .ok pr => uploadAll now pr.2 rest

/-- The parts bookkeeping the store accumulates for the same uploads: one
ChunkPart per uploaded index, in arrival order. -/
def recordParts (now : Int) (uploads : List (Int × Bytes)) : AList Int ChunkPart :=
  uploads.map (fun u =>
    (u.1, { index := u.1, size := (u.2.length : Int), checksum := "", eTag := "",
            uploadedAt := now }))

/-- A session holding exactly the bookkeeping of the given uploads. -/
def sessionAfterUploads (key : String) (now : Int) (uploads : List (Int × Bytes)) :
    ChunkSession :=
  { id := key, key := key, totalSize := 0, partSize := 0, metadata := none,
    createdAt := now, expiresAt := now, state := ChunkSessionStateActive,
    uploadedParts := some (recordParts now uploads), providerData := some [] }

/-- Uploading a list of parts and then completing the session (the
UploadChunk* then CompleteChunked scenario on the FS provider). -/
def fsChunkPipeline (now : Int) (key : String) (uploads : List (Int × Bytes)) :
    Except UploaderErr Bytes :=
  match uploadAll now [] uploads with
  | .error e => .error e
  | .ok dir => fsCompleteChunked dir (sessionAfterUploads key now uploads)

/-- Concatenation of the uploaded payloads in ascending index order. -/
def assembleSorted (uploads : List (Int × Bytes)) : Bytes :=
  ((sortInts (uploads.map Prod.fst)).map (fun i => (alistLookup uploads i).getD [])).flatten

/-- Example session defaults used by concrete witnesses. -/
def blankSession (id key : String) : ChunkSession :=
  { id := id, key := key, totalSize := 0, partSize := 0, metadata := none,
    createdAt := 0, expiresAt := 0, state := "", uploadedParts := none,
    providerData := none }

/-- Example stored session used by concrete counterexamples: active unless
stated otherwise, with allocated empty maps, created at 10 and expiring at 50. -/
def storedSession (id key : String) : ChunkSession :=
  { id := id, key := key, totalSize := 0, partSize := 0, metadata := none,
    createdAt := 10, expiresAt := 50, state := ChunkSessionStateActive,
    uploadedParts := some [], providerData := some [] }

/-- A part fixture with index 0. -/
def zeroPart : ChunkPart :=
  { index := 0, size := 4, checksum := "", eTag := "", uploadedAt := 0 }

/-- A part fixture recorded at the negative index -1. -/
def negPart : ChunkPart :=
  { index := -1, size := 4, checksum := "", eTag := "", uploadedAt := 20 }

/-- Store fixture whose only session ("s1", active, expiresAt 50) is already
expired at the store clock 100. -/
def expiredActiveStore : ChunkSessionStore :=
  { ttl := 60, sessions := [("s1", storedSession "s1" "k")], now := 100 }

/-- Store fixture whose only session is completed and already expired at the
store clock 100. -/
def expiredClosedStore : ChunkSessionStore :=
  { ttl := 60,
    sessions := [("s1",
      { storedSession "s1" "k" with state := ChunkSessionStateCompleted })],
    now := 100 }

/-- Store fixture whose only session is live (clock 40, expiresAt 50), active,
and has a part recorded at index -1. -/
def negPartStore : ChunkSessionStore :=
  { ttl := 60,
    sessions := [("s1",
      { storedSession "s1" "k" with uploadedParts := some [(-1, negPart)] })],
    now := 40 }

/-- Store fixture whose clock sits exactly on its only session's expiresAt. -/
def boundaryStore : ChunkSessionStore :=
  { ttl := 60, sessions := [("s1", storedSession "s1" "k")], now := 50 }

/-- Store fixture with one live active session (clock 40, expiresAt 50). -/
def liveStore : ChunkSessionStore :=
  { ttl := 60, sessions := [("s1", storedSession "s1" "k")], now := 40 }

/-- Manager fixture with a configured chunk-capable provider over liveStore. -/
def liveManager : ManagerModel :=
  { providerOk := true, providerChunked := true, store := liveStore }

/-- Reference-level session fixture: maps at references 0 and 1, live and
active (expiresAt 50). -/
def refSession : RefChunkSession :=
  { id := "s1", key := "k", totalSize := 0, partSize := 0, metadata := none,
    createdAt := 10, expiresAt := 50, state := ChunkSessionStateActive,
    uploadedPartsRef := 0, providerDataRef := 1 }

/-- Heap fixture in which both of refSession's maps are allocated and empty. -/
def emptyMapsHeap : MapHeap :=
  { parts := fun _ => [], data := fun _ => [], next := 2 }

/-- Heap fixture in which both of refSession's maps are non-empty. -/
def nonemptyMapsHeap : MapHeap :=
  { parts := fun r => if r = 0 then [(0, zeroPart)] else [],
    data := fun r => if r = 1 then [("uploadID", "abc123")] else [],
    next := 2 }

/-- Reference-level store fixture holding refSession, clock 40 (not expired). -/
def refStore1 : RefStore :=
  { sessions := [("s1", refSession)], now := 40 }

section AListLemmas

variable {κ ν : Type} [DecidableEq κ]

theorem alistLookup_mem {m : AList κ ν} {k : κ} {v : ν}
    (h : alistLookup m k = some v) : (k, v) ∈ m := by
  induction m with
  | nil => simp [alistLookup] at h
  | cons p rest ih =>
      obtain ⟨k', v'⟩ := p
      rw [alistLookup] at h
      by_cases hk : k' = k
      · rw [if_pos hk] at h
        injection h with h
        subst hk
        subst h
        exact List.mem_cons_self _ _
      · rw [if_neg hk] at h
        exact List.mem_cons_of_mem _ (ih h)

theorem alistLookup_eq_none_iff {m : AList κ ν} {k : κ} :
    alistLookup m k = none ↔ k ∉ alistKeys m := by
  induction m with
  | nil => simp [alistLookup, alistKeys]
  | cons p rest ih =>
      obtain ⟨k', v'⟩ := p
      rw [alistLookup]
      by_cases hk : k' = k
      · simp [alistKeys, hk]
      · simp [alistKeys, hk, Ne.symm hk] at ih ⊢
        exact ih

theorem alistLookup_of_mem_nodup {m : AList κ ν} {k : κ} {v : ν}
    (hnd : (alistKeys m).Nodup) (hmem : (k, v) ∈ m) : alistLookup m k = some v := by
  induction m with
  | nil => simp at hmem
  | cons p rest ih =>
      obtain ⟨k', v'⟩ := p
      rw [alistKeys, List.map_cons, List.nodup_cons] at hnd
      rcases List.mem_cons.mp hmem with hhd | htl
      · rw [Prod.mk.injEq] at hhd
        rw [alistLookup, if_pos hhd.1.symm, hhd.2]
      · have hk : k' ≠ k := by
          intro hk
          have hmap : k ∈ List.map Prod.fst rest := List.mem_map_of_mem Prod.fst htl
          rw [← hk] at hmap
          exact hnd.1 hmap
        rw [alistLookup, if_neg hk]
        exact ih hnd.2 htl

theorem alistLookup_eq_of_perm {m₁ m₂ : AList κ ν}
    (hnd : (alistKeys m₁).Nodup) (hperm : m₁.Perm m₂) (k : κ) :
    alistLookup m₁ k = alistLookup m₂ k := by
  have hnd₂ : (alistKeys m₂).Nodup := ((hperm.map Prod.fst).nodup_iff).mp hnd
  cases h₁ : alistLookup m₁ k with
  | none =>
      cases h₂ : alistLookup m₂ k with
      | none => rfl
      | some v =>
          exfalso
          have := alistLookup_mem h₂
          have hmem₁ : (k, v) ∈ m₁ := hperm.symm.subset this
          rw [alistLookup_of_mem_nodup hnd hmem₁] at h₁
          exact Option.noConfusion h₁
  | some v =>
      have hmem₂ : (k, v) ∈ m₂ := hperm.subset (alistLookup_mem h₁)
      rw [alistLookup_of_mem_nodup hnd₂ hmem₂]

theorem alistInsert_of_lookup_none {m : AList κ ν} {k : κ} (v : ν)
    (h : alistLookup m k = none) : alistInsert m k v = m ++ [(k, v)] := by
  induction m with
  | nil => rfl
  | cons p rest ih =>
      obtain ⟨k', v'⟩ := p
      rw [alistLookup] at h
      by_cases hk : k' = k
      · rw [if_pos hk] at h
        exact Option.noConfusion h
      · rw [if_neg hk] at h
        rw [alistInsert, if_neg hk, ih h, List.cons_append]

theorem alistLookup_filter_of_pred_false {m : AList κ ν} {k : κ} {v : ν}
    {pred : κ × ν → Bool}
    (hnd : (alistKeys m).Nodup) (hlk : alistLookup m k = some v)
    (hpred : pred (k, v) = false) :
    alistLookup (m.filter pred) k = none := by
  rw [alistLookup_eq_none_iff]
  intro hmem
  rw [alistKeys, List.mem_map] at hmem
  obtain ⟨⟨k₂, v₂⟩, hmem₂, hfst⟩ := hmem
  rw [List.mem_filter] at hmem₂
  have hk₂ : k₂ = k := hfst
  subst hk₂
  have hv : alistLookup m k₂ = some v₂ :=
    alistLookup_of_mem_nodup hnd hmem₂.1
  rw [hlk] at hv
  injection hv with hv
  rw [← hv, hpred] at hmem₂
  exact Bool.noConfusion hmem₂.2

theorem alistLookup_erase_self (m : AList κ ν) (k : κ) :
    alistLookup (alistErase m k) k = none := by
  rw [alistLookup_eq_none_iff, alistErase]
  intro hmem
  rw [alistKeys, List.mem_map] at hmem
  obtain ⟨⟨k₂, v₂⟩, hmem₂, hfst⟩ := hmem
  rw [List.mem_filter] at hmem₂
  have hk₂ : k₂ = k := hfst
  subst hk₂
  simp at hmem₂

end AListLemmas

/-- The defaulting block never changes the id, the key, or the stored maps of
a session that already has them. -/
theorem createDefaults_id (s : ChunkSessionStore) (sess : ChunkSession) :
    (createDefaults s sess).id = sess.id ∧ (createDefaults s sess).key = sess.key := by
  simp only [createDefaults]
  split_ifs <;> exact ⟨rfl, rfl⟩

/-- C9: ChunkSessionStore.Create mutates the caller's session argument in
place — for every session passed in with zero createdAt, zero expiresAt, empty
state and nil maps, the caller's own struct afterwards carries the defaulted
createdAt, expiresAt, active state and freshly allocated empty maps, and this
holds even when Create then fails with AlreadyExists. -/
theorem c9_create_mutates_caller_argument (s : ChunkSessionStore) (sess : ChunkSession)
    (hid : sess.id ≠ "") (hkey : sess.key ≠ "")
    (hca : sess.createdAt = 0) (hex : sess.expiresAt = 0) (hst : sess.state = "")
    (hup : sess.uploadedParts = none) (hpd : sess.providerData = none) :
    (s.create sess).arg =
      { sess with createdAt := s.now, expiresAt := s.now + s.ttl,
                  state := ChunkSessionStateActive,
                  uploadedParts := some [], providerData := some [] } ∧
    ((alistLookup s.sessions sess.id).isSome →
      (s.create sess).result = .error .sessionExists) := by
  unfold ChunkSessionStore.create createDefaults
  rw [if_neg hid, if_neg hkey]
  simp only [hca, hex, hst, hup, hpd, if_true, ite_true, zero_add]
  cases h : alistLookup s.sessions sess.id <;> simp [h]

/-- Witness for C9 at a concrete store and session. -/
theorem c9_witness :
    (ChunkSessionStore.create { ttl := 60, sessions := [], now := 1000 }
        (blankSession "s1" "k")).arg =
      { blankSession "s1" "k" with
          createdAt := 1000, expiresAt := 1060,
          state := ChunkSessionStateActive,
          uploadedParts := some [], providerData := some [] } :=
  (c9_create_mutates_caller_argument { ttl := 60, sessions := [], now := 1000 }
    (blankSession "s1" "k") (by decide) (by decide) (by decide) (by decide)
    (by decide) (by decide) (by decide)).1

/-- C3 counterexample: a store whose only entry has id "s1" and is already
expired (expiresAt 50 < now 100) still makes Create of a fresh valid session
with id "s1" fail with AlreadyExists, so Create does not succeed on collision
with an expired entry as the claim states. -/
theorem c3_counterexample :
    (ChunkSessionStore.create
        { ttl := 60, sessions := [("s1", storedSession "s1" "k")], now := 100 }
        (blankSession "s1" "k2")).result = .error .sessionExists ∧
    (100 : Int) > (storedSession "s1" "k").expiresAt := by
  constructor
  · rfl
  · decide

/-- C3 amended: Create (with a non-empty id and key) fails with AlreadyExists
exactly when the id collides with any stored entry, live or expired — the
collision check never consults expiresAt. -/
theorem c3_create_collision_ignores_expiry (s : ChunkSessionStore) (sess : ChunkSession)
    (hid : sess.id ≠ "") (hkey : sess.key ≠ "") :
    (s.create sess).result = .error .sessionExists ↔
      (alistLookup s.sessions sess.id).isSome := by
  have hdid : (createDefaults s sess).id = sess.id := (createDefaults_id s sess).1
  unfold ChunkSessionStore.create
  rw [if_neg hid, if_neg hkey]
  dsimp only
  rw [hdid]
  cases h : alistLookup s.sessions sess.id <;> simp [h]

/-- Witness for C3 amended at a concrete store and session. -/
theorem c3_witness :
    (ChunkSessionStore.create { ttl := 60, sessions := [], now := 1000 }
        (blankSession "s2" "k")).result ≠ .error .sessionExists := by
  have h := (c3_create_collision_ignores_expiry
    { ttl := 60, sessions := [], now := 1000 } (blankSession "s2" "k")
    (by decide) (by decide))
  intro hc
  have := h.mp hc
  simp [alistLookup] at this

/-- C2 counterexample: at a store whose only session is active but expired
(expiresAt 50, clock 100), MarkCompleted succeeds instead of returning
SessionNotFound, and after a Get access the store still contains the session
— both contradicting the claim. -/
theorem c2_counterexample :
    (100 : Int) > (storedSession "s1" "k").expiresAt ∧
    (expiredActiveStore.markCompleted "s1").1 =
      .ok { storedSession "s1" "k" with state := ChunkSessionStateCompleted } ∧
    (expiredActiveStore.get "s1").1 = none ∧
    ((expiredActiveStore.get "s1").2).sessions = [("s1", storedSession "s1" "k")] := by
  refine ⟨by decide, rfl, rfl, rfl⟩

/-- C2 amended: for a stored session whose expiresAt is strictly in the past,
Get reports it as not found but leaves the store unchanged (no purge); AddPart
(with a non-negative index) reports SessionNotFound and purges it; and
MarkCompleted and MarkAborted ignore expiry entirely — on an expired but
active session they succeed and transition the state, and on an expired
non-active session they fail with Closed. -/
theorem c2_expiry_semantics (s : ChunkSessionStore) (id : String) (sess : ChunkSession)
    (part : ChunkPart)
    (hlk : alistLookup s.sessions id = some sess)
    (hexp : s.now > sess.expiresAt) (hidx : 0 ≤ part.index) :
    s.get id = (none, s) ∧
    s.addPart id part = (.error .sessionNotFound, s.delete id) ∧
    (sess.state = ChunkSessionStateActive →
      s.markCompleted id =
        (.ok { sess with state := ChunkSessionStateCompleted },
         { s with sessions :=
             alistInsert s.sessions id { sess with state := ChunkSessionStateCompleted } }) ∧
      s.markAborted id =
        (.ok { sess with state := ChunkSessionStateAborted },
         { s with sessions :=
             alistInsert s.sessions id { sess with state := ChunkSessionStateAborted } })) ∧
    (sess.state ≠ ChunkSessionStateActive →
      s.markCompleted id = (.error .sessionClosed, s) ∧
      s.markAborted id = (.error .sessionClosed, s)) := by
  have hnneg : ¬ part.index < 0 := not_lt.mpr hidx
  refine ⟨?_, ?_, ?_, ?_⟩
  · simp [ChunkSessionStore.get, hlk, hexp]
  · simp [ChunkSessionStore.addPart, ChunkSessionStore.delete, hlk, hexp, hnneg]
  · intro hactive
    constructor <;>
      simp [ChunkSessionStore.markCompleted, ChunkSessionStore.markAborted,
        ChunkSessionStore.updateState, hlk, hactive]
  · intro hstate
    constructor <;>
      simp [ChunkSessionStore.markCompleted, ChunkSessionStore.markAborted,
        ChunkSessionStore.updateState, hlk, hstate]

/-- Witness for C2 amended at the expired-active store fixture. -/
theorem c2_witness :
    ChunkSessionStore.get expiredActiveStore "s1" = (none, expiredActiveStore) ∧
    ChunkSessionStore.addPart expiredActiveStore "s1" zeroPart =
      (.error .sessionNotFound, expiredActiveStore.delete "s1") :=
  ⟨(c2_expiry_semantics expiredActiveStore "s1" (storedSession "s1" "k") zeroPart
      (by decide) (by decide) (by decide)).1,
   (c2_expiry_semantics expiredActiveStore "s1" (storedSession "s1" "k") zeroPart
      (by decide) (by decide) (by decide)).2.1⟩

/-- C4 counterexample: on an expired session whose state is completed, AddPart
fails with SessionNotFound rather than Closed, and removes the session from
the store rather than leaving it unchanged. -/
theorem c4_counterexample :
    ({ storedSession "s1" "k" with state := ChunkSessionStateCompleted
     } : ChunkSession).state ≠ ChunkSessionStateActive ∧
    (expiredClosedStore.addPart "s1" zeroPart).1 = .error .sessionNotFound ∧
    (expiredClosedStore.addPart "s1" zeroPart).1 ≠ .error .sessionClosed ∧
    ((expiredClosedStore.addPart "s1" zeroPart).2).sessions = [] := by
  refine ⟨by decide, rfl, by decide, rfl⟩

/-- C4 amended: completed and aborted are terminal — MarkCompleted and
MarkAborted fail with Closed on every session whose state is not active and
leave the store unchanged, and AddPart does so too provided the session is not
expired; on an expired non-active session AddPart instead fails with
SessionNotFound and purges the session. -/
theorem c4_terminal_states (s : ChunkSessionStore) (id : String) (sess : ChunkSession)
    (part : ChunkPart)
    (hlk : alistLookup s.sessions id = some sess)
    (hstate : sess.state ≠ ChunkSessionStateActive) (hidx : 0 ≤ part.index) :
    s.markCompleted id = (.error .sessionClosed, s) ∧
    s.markAborted id = (.error .sessionClosed, s) ∧
    (¬ s.now > sess.expiresAt → s.addPart id part = (.error .sessionClosed, s)) ∧
    (s.now > sess.expiresAt → s.addPart id part = (.error .sessionNotFound, s.delete id)) := by
  have hnneg : ¬ part.index < 0 := not_lt.mpr hidx
  refine ⟨?_, ?_, ?_, ?_⟩
  · simp [ChunkSessionStore.markCompleted, ChunkSessionStore.updateState, hlk, hstate]
  · simp [ChunkSessionStore.markAborted, ChunkSessionStore.updateState, hlk, hstate]
  · intro hlive
    simp [ChunkSessionStore.addPart, hlk, hlive, hnneg, hstate]
  · intro hexp
    simp [ChunkSessionStore.addPart, ChunkSessionStore.delete, hlk, hexp, hnneg]

/-- Witness for C4 amended at the expired-completed store fixture. -/
theorem c4_witness :
    ChunkSessionStore.markCompleted expiredClosedStore "s1" =
      (.error .sessionClosed, expiredClosedStore) ∧
    ChunkSessionStore.addPart expiredClosedStore "s1" zeroPart =
      (.error .sessionNotFound, expiredClosedStore.delete "s1") :=
  ⟨(c4_terminal_states expiredClosedStore "s1"
      { storedSession "s1" "k" with state := ChunkSessionStateCompleted } zeroPart
      (by decide) (by decide) (by decide)).1,
   (c4_terminal_states expiredClosedStore "s1"
      { storedSession "s1" "k" with state := ChunkSessionStateCompleted } zeroPart
      (by decide) (by decide) (by decide)).2.2.2 (by decide)⟩

/-- C5 counterexample: a live active session already holding a part recorded
at index -1: a second AddPart for index -1 fails with PartOutOfRange, not
PartDuplicate as the claim requires (the store is still left unchanged). -/
theorem c5_counterexample :
    ¬ (40 : Int) > (storedSession "s1" "k").expiresAt ∧
    (storedSession "s1" "k").state = ChunkSessionStateActive ∧
    alistLookup [((-1 : Int), negPart)] (-1) = some negPart ∧
    (negPartStore.addPart "s1"
        { index := -1, size := 9, checksum := "", eTag := "", uploadedAt := 30 }).1 =
      .error .partOutOfRange ∧
    (negPartStore.addPart "s1"
        { index := -1, size := 9, checksum := "", eTag := "", uploadedAt := 30 }).1 ≠
      .error .partDuplicate := by
  refine ⟨by decide, rfl, rfl, rfl, by decide⟩

/-- C5 amended: on an active, non-expired session that already has a part
recorded at index i, a second AddPart for index i fails — with PartDuplicate
when i is non-negative, and with PartOutOfRange when i is negative — and in
both cases the store (hence the recorded part) is left unchanged, so the
second AddPart never overwrites the first. -/
theorem c5_duplicate_part (s : ChunkSessionStore) (id : String)
    (sess : ChunkSession) (i : Int) (p0 part : ChunkPart)
    (hlk : alistLookup s.sessions id = some sess)
    (hlive : ¬ s.now > sess.expiresAt)
    (hactive : sess.state = ChunkSessionStateActive)
    (hrec : alistLookup (sess.uploadedParts.getD []) i = some p0)
    (hpi : part.index = i) :
    (0 ≤ i → s.addPart id part = (.error .partDuplicate, s)) ∧
    (i < 0 → s.addPart id part = (.error .partOutOfRange, s)) := by
  constructor
  · intro hnn
    have hnneg : ¬ part.index < 0 := by omega
    simp [ChunkSessionStore.addPart, hlk, hlive, hactive, hnneg, hpi, hrec]
    exact hnn
  · intro hneg
    have hneg' : part.index < 0 := by omega
    simp [ChunkSessionStore.addPart, hneg']

/-- Witness for C5 amended at the negative-index fixture (both branches of the
amendment are exercised: the recorded index is -1, so AddPart answers
PartOutOfRange). -/
theorem c5_witness :
    ChunkSessionStore.addPart negPartStore "s1"
        { index := -1, size := 9, checksum := "", eTag := "", uploadedAt := 30 } =
      (.error .partOutOfRange, negPartStore) :=
  (c5_duplicate_part negPartStore "s1"
      { storedSession "s1" "k" with uploadedParts := some [(-1, negPart)] }
      (-1) negPart { index := -1, size := 9, checksum := "", eTag := "", uploadedAt := 30 }
      (by decide) (by decide) (by decide) (by decide) (by decide)).2 (by decide)

/-- C10: the expiry boundary is inconsistent across operations — with the
clock exactly equal to a session's expiresAt, Get still returns the session
and AddPart still accepts a new part (both treat a session as expired only
strictly after expiresAt), while CleanupExpired at that same instant removes
the session and reports its id. -/
theorem c10_expiry_boundary (s : ChunkSessionStore) (id : String) (sess : ChunkSession)
    (part : ChunkPart)
    (hlk : alistLookup s.sessions id = some sess)
    (hnow : s.now = sess.expiresAt)
    (hnd : (alistKeys s.sessions).Nodup)
    (hactive : sess.state = ChunkSessionStateActive)
    (hfresh : alistLookup (sess.uploadedParts.getD []) part.index = none)
    (hidx : 0 ≤ part.index) :
    (s.get id).1 = some sess ∧
    (s.addPart id part).1 =
      .ok { sess with
              uploadedParts :=
                some (alistInsert (sess.uploadedParts.getD []) part.index
                  (if part.uploadedAt = 0 then { part with uploadedAt := s.now }
                   else part)) } ∧
    id ∈ (s.cleanupExpired s.now).1 ∧
    alistLookup ((s.cleanupExpired s.now).2).sessions id = none := by
  have hnotgt : ¬ s.now > sess.expiresAt := by omega
  have hnneg : ¬ part.index < 0 := not_lt.mpr hidx
  refine ⟨?_, ?_, ?_, ?_⟩
  · simp [ChunkSessionStore.get, hlk, hnotgt]
  · simp [ChunkSessionStore.addPart, hlk, hnotgt, hactive, hfresh, hnneg]
    by_cases hup : part.uploadedAt = 0 <;> simp [hup]
  · have hmem : (id, sess) ∈ s.sessions := alistLookup_mem hlk
    have hkeep : (decide (s.now < sess.expiresAt)) = false := by
      rw [decide_eq_false_iff_not]
      omega
    unfold ChunkSessionStore.cleanupExpired
    dsimp only
    rw [List.mem_map]
    refine ⟨(id, sess), ?_, rfl⟩
    rw [List.mem_filter]
    exact ⟨hmem, by simp [hkeep]⟩
  · have hkeep : (fun (p : String × ChunkSession) => decide (s.now < p.2.expiresAt))
        (id, sess) = false := by
      show (decide (s.now < sess.expiresAt)) = false
      rw [decide_eq_false_iff_not]
      omega
    unfold ChunkSessionStore.cleanupExpired
    dsimp only
    exact alistLookup_filter_of_pred_false hnd hlk hkeep

/-- Witness for C10 at the boundary fixture (clock 50, expiresAt 50). -/
theorem c10_witness :
    (boundaryStore.get "s1").1 = some (storedSession "s1" "k") ∧
    "s1" ∈ (boundaryStore.cleanupExpired boundaryStore.now).1 ∧
    alistLookup ((boundaryStore.cleanupExpired boundaryStore.now).2).sessions "s1" = none :=
  ⟨(c10_expiry_boundary boundaryStore "s1" (storedSession "s1" "k") zeroPart
      (by decide) (by decide) (by decide) (by decide) (by decide) (by decide)).1,
   (c10_expiry_boundary boundaryStore "s1" (storedSession "s1" "k") zeroPart
      (by decide) (by decide) (by decide) (by decide) (by decide) (by decide)).2.2.1,
   (c10_expiry_boundary boundaryStore "s1" (storedSession "s1" "k") zeroPart
      (by decide) (by decide) (by decide) (by decide) (by decide) (by decide)).2.2.2⟩

/-- C6: in the orchestrator's UploadChunk the backend call happens before any
store bookkeeping — whenever the backend returns an error, that error is
propagated and the manager (in particular the store, its record for the
session, and the session's state) is exactly what it was before the call: no
part is registered. -/
theorem c6_backend_failure_no_bookkeeping (m : ManagerModel)
    (backend : ChunkSession → Int → Except String ChunkPart)
    (id : String) (idx : Int) (sess : ChunkSession) (e : String)
    (hidx : 0 ≤ idx)
    (hprov : m.providerOk = true) (hchunk : m.providerChunked = true)
    (hget : m.getChunkSession id = .ok sess)
    (hbackend : backend sess idx = .error e) :
    m.uploadChunk backend id idx false = (.error (.backend e), m) := by
  have hnneg : ¬ idx < 0 := not_lt.mpr hidx
  simp [ManagerModel.uploadChunk, hnneg, hprov, hchunk, hget, hbackend]

/-- Witness for C6: a backend that always fails leaves the concrete manager
untouched and surfaces the backend error. -/
theorem c6_witness :
    ManagerModel.uploadChunk liveManager (fun _ _ => .error "boom") "s1" 0 false =
      (.error (.backend "boom"), liveManager) :=
  c6_backend_failure_no_bookkeeping liveManager (fun _ _ => .error "boom") "s1" 0
    (storedSession "s1" "k") "boom" (by decide) (by decide) (by decide) (by decide) rfl

/-- C8: with the strict callback mode and the synchronous executor, whenever
the storage write succeeds (the provider upload step) but the post-upload
callback fails, the overall call fails with the callback's error and the
just-uploaded object has been deleted from the provider as compensation. -/
theorem c8_strict_callback_compensation (p : ProviderState) (key : String)
    (content : Bytes) (e : String) :
    (handleFileWithCallback p key content .strict .sync (.error e)).1 = .error e ∧
    alistLookup ((handleFileWithCallback p key content .strict .sync (.error e)).2).files key
      = none ∧
    key ∈ ((handleFileWithCallback p key content .strict .sync (.error e)).2).deleted := by
  refine ⟨rfl, ?_, ?_⟩
  · simp [handleFileWithCallback, executeCallback, providerDelete, providerUpload,
      alistLookup_erase_self]
  · simp [handleFileWithCallback, executeCallback, providerDelete]

theorem uploadAll_append (now : Int) (d : ChunkDir) (l : List (Int × Bytes))
    (hnd : (alistKeys d ++ l.map Prod.fst).Nodup) (hpos : ∀ p ∈ l, 0 ≤ p.1) :
    uploadAll now d l = .ok (d ++ l) := by
  induction l generalizing d with
  | nil => simp [uploadAll]
  | cons hd tl ih =>
      obtain ⟨k, v⟩ := hd
      have hk0 : (0 : Int) ≤ k := hpos (k, v) (List.mem_cons_self _ _)
      have hknotin : k ∉ alistKeys d := by
        rw [List.nodup_append] at hnd
        intro hmem
        exact hnd.2.2 hmem (by simp)
      have hlk : alistLookup d k = none := alistLookup_eq_none_iff.mpr hknotin
      rw [uploadAll]
      simp only [fsUploadChunk, if_neg (not_lt.mpr hk0), hlk]
      rw [alistInsert_of_lookup_none v hlk]
      have hnd' : (alistKeys (d ++ [(k, v)]) ++ tl.map Prod.fst).Nodup := by
        have hkeys : alistKeys (d ++ [(k, v)]) = alistKeys d ++ [k] := by
          simp [alistKeys]
        rw [hkeys, List.append_assoc, List.singleton_append]
        simpa using hnd
      have := ih (d ++ [(k, v)]) hnd' (fun p hp => hpos p (List.mem_cons_of_mem _ hp))
      rw [this, List.append_assoc, List.singleton_append]

theorem appendChunks_ok (dir : ChunkDir) (idxs : List Int) (acc : Bytes)
    (h : ∀ i ∈ idxs, (alistLookup dir i).isSome) :
    appendChunks dir idxs acc =
      .ok (acc ++ (idxs.map (fun i => (alistLookup dir i).getD [])).flatten) := by
  induction idxs generalizing acc with
  | nil => simp [appendChunks]
  | cons i rest ih =>
      have hi := h i (List.mem_cons_self _ _)
      obtain ⟨b, hb⟩ := Option.isSome_iff_exists.mp hi
      have hrest := ih (acc ++ b) (fun j hj => h j (List.mem_cons_of_mem _ hj))
      simp only [appendChunks, hb, hrest, List.map_cons, List.flatten_cons,
        Option.getD_some, List.append_assoc]

theorem alistKeys_recordParts (now : Int) (l : List (Int × Bytes)) :
    alistKeys (recordParts now l) = l.map Prod.fst := by
  simp [alistKeys, recordParts, List.map_map]

theorem sortInts_eq_of_perm {l1 l2 : List Int} (h : l1.Perm l2) :
    sortInts l1 = sortInts l2 := by
  have hs1 : List.Sorted (fun a b : Int => a ≤ b) (sortInts l1) :=
    List.sorted_insertionSort _ l1
  have hs2 : List.Sorted (fun a b : Int => a ≤ b) (sortInts l2) :=
    List.sorted_insertionSort _ l2
  have hp : (sortInts l1).Perm (sortInts l2) :=
    (List.perm_insertionSort _ l1).trans (h.trans (List.perm_insertionSort _ l2).symm)
  exact List.eq_of_perm_of_sorted hp hs1 hs2

theorem fsChunkPipeline_ok (now : Int) (key : String) (l : List (Int × Bytes))
    (hnd : (l.map Prod.fst).Nodup) (hpos : ∀ p ∈ l, 0 ≤ p.1) (hne : l ≠ []) :
    fsChunkPipeline now key l = .ok (assembleSorted l) := by
  have hup : uploadAll now ([] : ChunkDir) l = .ok l := by
    have h := uploadAll_append now [] l (by simpa [alistKeys] using hnd) hpos
    simpa using h
  have hall : ∀ i ∈ sortInts (l.map Prod.fst), (alistLookup l i).isSome := by
    intro i hi
    have hmem : i ∈ l.map Prod.fst := (List.perm_insertionSort _ _).subset hi
    rw [Option.isSome_iff_ne_none]
    intro hnone
    rw [alistLookup_eq_none_iff] at hnone
    exact hnone (by simpa [alistKeys] using hmem)
  have happ := appendChunks_ok l (sortInts (l.map Prod.fst)) [] hall
  have hlen : ¬ goMapLen (some (recordParts now l)) = 0 := by
    simpa [goMapLen, recordParts, List.length_eq_zero] using hne
  unfold fsChunkPipeline
  rw [hup]
  show fsCompleteChunked l (sessionAfterUploads key now l) = .ok (assembleSorted l)
  unfold fsCompleteChunked sessionAfterUploads
  dsimp only [Option.getD]
  rw [if_neg hlen, alistKeys_recordParts, happ]
  simp [assembleSorted]

/-- C7: completion assembles parts in ascending index order regardless of
upload arrival order — for any two arrival orders of the same set of parts
(distinct non-negative indices), uploading the chunks and completing the
session produces the concatenation of the payloads sorted by part index, and
the two final artifacts are byte-identical. -/
theorem c7_completion_order_independent (now : Int) (key : String)
    (l1 l2 : List (Int × Bytes)) (hperm : l1.Perm l2)
    (hnd : (l1.map Prod.fst).Nodup) (hpos : ∀ p ∈ l1, 0 ≤ p.1) (hne : l1 ≠ []) :
    fsChunkPipeline now key l1 = .ok (assembleSorted l1) ∧
    fsChunkPipeline now key l2 = .ok (assembleSorted l1) := by
  have hnd2 : (l2.map Prod.fst).Nodup := ((hperm.map Prod.fst).nodup_iff).mp hnd
  have hpos2 : ∀ p ∈ l2, 0 ≤ p.1 := fun p hp => hpos p (hperm.symm.subset hp)
  have hne2 : l2 ≠ [] := by
    intro h
    subst h
    exact hne (List.Perm.eq_nil hperm)
  have heq : assembleSorted l2 = assembleSorted l1 := by
    unfold assembleSorted
    rw [sortInts_eq_of_perm (hperm.map Prod.fst).symm]
    congr 1
    apply List.map_congr_left
    intro i _
    rw [alistLookup_eq_of_perm hnd hperm i]
  refine ⟨fsChunkPipeline_ok now key l1 hnd hpos hne, ?_⟩
  rw [fsChunkPipeline_ok now key l2 hnd2 hpos2 hne2, heq]

/-- Witness for C7: the two-part round trip of spec scenario E — uploading
index 1 then index 0 yields the same artifact as uploading 0 then 1, namely
the bytes of part 0 followed by the bytes of part 1. -/
theorem c7_witness :
    fsChunkPipeline 0 "a.bin" [((0 : Int), [10, 11]), ((1 : Int), [20])] =
      .ok [10, 11, 20] ∧
    fsChunkPipeline 0 "a.bin" [((1 : Int), [20]), ((0 : Int), [10, 11])] =
      .ok [10, 11, 20] := by
  have h := c7_completion_order_independent 0 "a.bin"
    [((0 : Int), [10, 11]), ((1 : Int), [20])]
    [((1 : Int), [20]), ((0 : Int), [10, 11])]
    (by decide) (by decide) (by decide) (by decide)
  have hval : assembleSorted [((0 : Int), [10, 11]), ((1 : Int), [20])] = [10, 11, 20] := by
    decide
  exact ⟨hval ▸ h.1, hval ▸ h.2⟩

/-- C1 counterexample: for a stored session whose maps are empty, Get returns
a session whose UploadedParts map is the very map object of the store's
internal record (cloneChunkSession only reallocates non-empty maps), so
writing a part through the returned session's map changes the internal
record's map from empty to non-empty. -/
theorem c1_counterexample :
    (RefStore.get refStore1 emptyMapsHeap "s1").1 = some refSession ∧
    (((RefStore.get refStore1 emptyMapsHeap "s1").1).getD refSession).uploadedPartsRef =
      refSession.uploadedPartsRef ∧
    emptyMapsHeap.parts refSession.uploadedPartsRef = [] ∧
    (((RefStore.get refStore1 emptyMapsHeap "s1").2).writePart
        ((((RefStore.get refStore1 emptyMapsHeap "s1").1).getD refSession).uploadedPartsRef)
        0 zeroPart).parts refSession.uploadedPartsRef = [(0, zeroPart)] := by
  refine ⟨rfl, rfl, rfl, rfl⟩

/-- C1 amended: every session a store operation returns goes through
cloneChunkSession of the internal record; when the record's UploadedParts and
ProviderData maps are both non-empty, the clone is a deep copy — its two map
references are freshly allocated (distinct from every pre-existing reference),
their contents equal the record's, all pre-existing references keep their
contents, and writing through the returned UploadedParts map never changes any
pre-existing map, in particular the store's internal record.  (For an empty
map no fresh map is allocated and the returned session shares the record's map
object, as the counterexample shows.) -/
theorem c1_clone_deep_copy_nonempty (h : MapHeap) (s : RefChunkSession)
    (hp : s.uploadedPartsRef < h.next) (hd : s.providerDataRef < h.next)
    (hpne : 0 < (h.parts s.uploadedPartsRef).length)
    (hdne : 0 < (h.data s.providerDataRef).length) :
    ((cloneChunkSession h s).1.uploadedPartsRef = h.next ∧
     (cloneChunkSession h s).1.providerDataRef = h.next + 1) ∧
    (∀ r, r < h.next →
      (cloneChunkSession h s).1.uploadedPartsRef ≠ r ∧
      (cloneChunkSession h s).1.providerDataRef ≠ r) ∧
    (cloneChunkSession h s).2.parts (cloneChunkSession h s).1.uploadedPartsRef
      = h.parts s.uploadedPartsRef ∧
    (cloneChunkSession h s).2.data (cloneChunkSession h s).1.providerDataRef
      = h.data s.providerDataRef ∧
    (∀ r, r < h.next →
      (cloneChunkSession h s).2.parts r = h.parts r ∧
      (cloneChunkSession h s).2.data r = h.data r) ∧
    (∀ k v r, r < h.next →
      ((cloneChunkSession h s).2.writePart
          (cloneChunkSession h s).1.uploadedPartsRef k v).parts r = h.parts r) := by
  have hstep : cloneChunkSession h s =
      ({ s with uploadedPartsRef := h.next, providerDataRef := h.next + 1 },
       { parts := fun r => if r = h.next then h.parts s.uploadedPartsRef else h.parts r,
         data := fun r => if r = h.next + 1 then h.data s.providerDataRef else h.data r,
         next := h.next + 2 }) := by
    unfold cloneChunkSession MapHeap.allocParts MapHeap.allocData
    rw [if_pos hpne]
    dsimp only
    rw [if_pos hdne]
  rw [hstep]
  refine ⟨⟨rfl, rfl⟩, ?_, ?_, ?_, ?_, ?_⟩
  · intro r hr
    exact ⟨by dsimp only; omega, by dsimp only; omega⟩
  · dsimp only
    rw [if_pos rfl]
  · dsimp only
    rw [if_pos rfl]
  · intro r hr
    constructor
    · dsimp only
      rw [if_neg (by omega)]
    · dsimp only
      rw [if_neg (by omega)]
  · intro k v r hr
    dsimp only [MapHeap.writePart]
    rw [if_neg (by omega), if_neg (by omega)]

/-- Witness for C1 amended: cloning refSession over the non-empty heap yields
fresh references 2 and 3 whose contents copy the record's maps. -/
theorem c1_witness :
    (cloneChunkSession nonemptyMapsHeap refSession).1.uploadedPartsRef = 2 ∧
    (cloneChunkSession nonemptyMapsHeap refSession).1.providerDataRef = 3 ∧
    (cloneChunkSession nonemptyMapsHeap refSession).2.parts
      (cloneChunkSession nonemptyMapsHeap refSession).1.uploadedPartsRef = [(0, zeroPart)] := by
  have h := c1_clone_deep_copy_nonempty nonemptyMapsHeap refSession
    (by decide) (by decide) (by decide) (by decide)
  refine ⟨h.1.1, h.1.2, ?_⟩
  rw [h.2.2.1]
  rfl

end GoUploader
